import Mathlib

/-!
Verification of the ModernGov API-normalization and council-resolution layer.

The development shallowly embeds the repository's TypeScript source:

* `CouncilMatcher` (src/council-matcher.ts): `calculateSimilarity`,
  `getConfidence`, `findMatches` — strings are `String`/`List Char`,
  scores are `ℚ`.
* `ModgovClient` (modgov-client.ts): `getEndpointUrl`, `checkRateLimit`,
  the `getMeetings` parameter construction, `handleApiResponse`, and the
  XML-response normalizers.  XML parsing by the external `xml2js` library
  is modelled by an oracle parameter producing a dynamic JavaScript-like
  value (`JVal`); the repository's own post-parse branching and defaulting
  logic is translated faithfully, including JavaScript truthiness,
  first-occurrence `String.replace`, and `Array.isArray` normalization.
-/

/-! ## List-of-characters string primitives (JavaScript semantics) -/

/-- Boolean prefix test on character lists (JS `String.startsWith`). -/
def isPrefB : List Char → List Char → Bool
  | [], _ => true
  | _ :: _, [] => false
  | a :: as, b :: bs => if a = b then isPrefB as bs else false

/-- Boolean suffix test on character lists (JS `String.endsWith`). -/
def endsB (s p : List Char) : Bool :=
  isPrefB p.reverse s.reverse

/-- Substring containment (JS `String.includes`): does `sub` occur in `s`? -/
def containsSub : List Char → List Char → Bool
  | [], sub => isPrefB sub []
  | c :: t, sub => isPrefB sub (c :: t) || containsSub t sub

/-- JS `String.replace` with a plain-string pattern: replace the first
occurrence of `pat` by `r`, leaving the string unchanged when `pat` does
not occur. -/
def replaceFirst : List Char → List Char → List Char → List Char
  | [], pat, r => if isPrefB pat [] then r else []
  | c :: t, pat, r =>
    if isPrefB pat (c :: t) then r ++ (c :: t).drop pat.length
    else c :: replaceFirst t pat r

/-- JS `str.replace(/\/$/, '')`: drop a single trailing slash. -/
def dropTrailingSlash (s : List Char) : List Char :=
  match s.reverse with
  | [] => s
  | c :: t => if c = '/' then t.reverse else s

/-- JS `str.split('://')`: split on every occurrence of the scheme
separator. -/
def splitSep : List Char → List (List Char)
  | [] => [[]]
  | c :: rest =>
    if c = ':' ∧ rest.take 2 = ['/', '/'] then
      match rest with
      | _ :: _ :: rest2 => [] :: splitSep rest2
      | _ => [[]]
    else
      match splitSep rest with
      | [] => [[c]]
      | p :: ps => (c :: p) :: ps

/-- JavaScript whitespace test (the characters relevant here). -/
def isWsChar (c : Char) : Bool :=
  c = ' ' || c = '\t' || c = '\n' || c = '\r'

/-- JS `String.trim`: strip whitespace from both ends. -/
def trimL (s : List Char) : List Char :=
  ((s.dropWhile isWsChar).reverse.dropWhile isWsChar).reverse

/-! ## Council matcher (src/council-matcher.ts) -/

/-- One record of the static reference list `councils.json`
(interface `CouncilInfo`). -/
structure CouncilInfo where
  council : String
  url : String
  region : String
  type : String
deriving DecidableEq

/-- Confidence tier of a match (the `'exact' | 'high' | 'medium' | 'low'`
union in `CouncilMatch`). -/
inductive Confidence where
  | exact
  | high
  | medium
  | low
deriving DecidableEq

/-- A match produced by the matcher (interface `CouncilMatch`). -/
structure CouncilMatch where
  council : CouncilInfo
  score : ℚ
  confidence : Confidence
deriving DecidableEq

/-- Numeric height of a confidence tier, for stating monotonicity. -/
def confRank : Confidence → Nat
  | .low => 0
  | .medium => 1
  | .high => 2
  | .exact => 3

/-- JS `String.toLowerCase`, modelled characterwise. -/
def lowerStr (s : String) : String :=
  String.mk (s.data.map Char.toLower)

/-- JS `str.split(/\s+/)`: split on maximal whitespace runs; a leading or
trailing run contributes an empty piece, and the empty string yields one
empty piece. -/
def splitWS : List Char → List Char → List (List Char)
  | acc, [] => [acc.reverse]
  | acc, c :: rest =>
    if isWsChar c then acc.reverse :: splitWS [] (rest.dropWhile isWsChar)
    else splitWS (c :: acc) rest
  termination_by _ s => s.length
  decreasing_by
    · have := List.Sublist.length_le (List.dropWhile_sublist (l := rest) isWsChar)
      simp only [List.length_cons]; omega
    · simp only [List.length_cons]; omega

/-- Levenshtein edit distance (the external `fast-levenshtein` dependency:
unit-cost insertion, deletion and substitution). -/
def levDist : List Char → List Char → Nat
  | [], b => b.length
  | a :: as, [] => (a :: as).length
  | a :: as, b :: bs =>
    if a = b then levDist as bs
    else 1 + min (levDist as bs)
            (min (levDist (a :: as) bs) (levDist as (b :: bs)))
  termination_by a b => a.length + b.length
  decreasing_by
    · simp only [List.length_cons]; omega
    · simp only [List.length_cons]; omega
    · simp only [List.length_cons]; omega
    · simp only [List.length_cons]; omega

/-- Count of query words having some matching council word
(the inner `for`/`break` loop of `calculateSimilarity`). -/
def wordMatchCount (queryWords councilWords : List (List Char)) : Nat :=
  queryWords.countP fun qw =>
    councilWords.any fun cw =>
      decide (qw = cw) || containsSub cw qw || containsSub qw cw

/-- `CouncilMatcher.calculateSimilarity`: similarity score between two
strings; exact case-insensitive equality scores 1.0, substring containment
0.9, otherwise the maximum of the word-overlap ratio and the Levenshtein
similarity. -/
def calculateSimilarity (query councilName : String) : ℚ :=
  let queryLower := lowerStr query
  let councilLower := lowerStr councilName
  if queryLower = councilLower then 1
  else if containsSub councilLower.data queryLower.data
       || containsSub queryLower.data councilLower.data then 9/10
  else
    let queryWords := splitWS [] queryLower.data
    let councilWords := splitWS [] councilLower.data
    let wordMatches := wordMatchCount queryWords councilWords
    let wordMatchFrac : ℚ :=
      (wordMatches : ℚ) / (max queryWords.length councilWords.length : ℚ)
    let maxLength := max queryLower.data.length councilLower.data.length
    let distance := levDist queryLower.data councilLower.data
    let levenshteinScore : ℚ := 1 - (distance : ℚ) / (maxLength : ℚ)
    max wordMatchFrac levenshteinScore

/-- `CouncilMatcher.getConfidence`: confidence tier from score thresholds. -/
def getConfidence (score : ℚ) : Confidence :=
  if score ≥ 95/100 then .exact
  else if score ≥ 8/10 then .high
  else if score ≥ 6/10 then .medium
  else .low

/-- The filtering loop of `CouncilMatcher.findMatches`: score each council
and keep those scoring at least `minScore`. -/
def collectMatches (query : String) (minScore : ℚ) :
    List CouncilInfo → List CouncilMatch
  | [] => []
  | c :: rest =>
    let score := calculateSimilarity query c.council
    if minScore ≤ score then
      { council := c, score := score, confidence := getConfidence score }
        :: collectMatches query minScore rest
    else collectMatches query minScore rest

/-- Insert a match into a list sorted by descending score. -/
def insertDesc (m : CouncilMatch) : List CouncilMatch → List CouncilMatch
  | [] => [m]
  | x :: xs => if x.score ≤ m.score then m :: x :: xs else x :: insertDesc m xs

/-- The final `matches.sort((a, b) => b.score - a.score)` of `findMatches`:
sort by descending score. -/
def sortDesc : List CouncilMatch → List CouncilMatch
  | [] => []
  | x :: xs => insertDesc x (sortDesc xs)

/-- `CouncilMatcher.findMatches`, with the matcher's static council list
made an explicit argument: empty/whitespace-only queries short-circuit to
`[]`; otherwise councils scoring at least `minScore` are returned in
descending score order. -/
def findMatches (councils : List CouncilInfo) (query : String)
    (minScore : ℚ) : List CouncilMatch :=
  if query = "" ∨ trimL query.data = [] then []
  else sortDesc (collectMatches query minScore councils)

/-! ## Dynamic JavaScript-like values (the result of `xml2js` parsing) -/

/-- A dynamic value as produced by `parseStringPromise` with
`explicitArray: false, ignoreAttrs: true, trim: true`: text nodes are
strings, elements are objects, repeated children are arrays; `null`
stands for an absent property (JS `undefined`). -/
inductive JVal where
  | null
  | str (s : String)
  | arr (elems : List JVal)
  | obj (fields : List (String × JVal))

/-- JavaScript truthiness for the values occurring here: `undefined` and
the empty string are falsy; objects and arrays are truthy. -/
def truthy : JVal → Bool
  | .null => false
  | .str s => !(s == "")
  | .arr _ => true
  | .obj _ => true

/-- Is the value absent (`undefined`)? -/
def isNull : JVal → Bool
  | .null => true
  | _ => false

/-- JS property access `v.name` (and the optional-chaining `v?.name`):
absent properties and non-objects give `undefined`. -/
def getField : JVal → String → JVal
  | .obj fields, name =>
    match fields.lookup name with
    | some v => v
    | none => .null
  | _, _ => .null

/-- JS `x || d`. -/
def jOr (x d : JVal) : JVal :=
  if truthy x then x else d

/-- JS `Array.isArray(x) ? x : [x]`. -/
def toArray : JVal → List JVal
  | .arr xs => xs
  | x => [x]

/-- JS `Array.isArray(x) ? x : (x ? [x] : [])`. -/
def toArrayOrEmpty (x : JVal) : List JVal :=
  match x with
  | .arr xs => xs
  | x => if truthy x then [x] else []

/-! ## Response normalizers (modgov-client.ts) -/

/-- Canonical ward element produced by `parseCouncillorsResponse`
(interface `Ward`); the nested councillor objects are kept as the raw
dynamic values that the source passes through. -/
structure WardOut where
  wardtitle : JVal
  councillorcount : JVal
  councillor : List JVal

/-- Canonical committee (interface `Committee`). -/
structure CommitteeOut where
  committeeid : JVal
  committeetitle : JVal
  committeedescription : JVal
  committeetype : JVal

/-- Canonical calendar event (interface `CalendarEvent`). -/
structure CalendarEventOut where
  eventid : JVal
  eventtitle : JVal
  eventdate : JVal
  eventdescription : JVal
  eventlocation : JVal

/-- Canonical meeting (interface `Meeting`). -/
structure MeetingOut where
  meetingid : JVal
  meetingtitle : JVal
  meetingdate : JVal
  meetingtime : JVal
  meetinglocation : JVal
  committeeid : JVal
  committeetitle : JVal

/-- The per-ward mapping inside `parseCouncillorsResponse`. -/
def normWard (ward : JVal) : WardOut :=
  { wardtitle := jOr (getField ward "wardtitle") (.str "")
  , councillorcount :=
      jOr (getField (getField ward "councillors") "councillorcount") (.str "0")
  , councillor := toArrayOrEmpty (getField (getField ward "councillors") "councillor") }

/-- `ModgovClient.parseCouncillorsResponse` after XML parsing: branch on
the possible root element names, guard, normalize the ward list. -/
def parseCouncillorsJ (j : JVal) : List WardOut :=
  let rootElement :=
    jOr (getField j "councillorsbyward")
      (jOr (getField j "councillorsbywardid") (getField j "councillorsbypostcode"))
  if !truthy rootElement || !truthy (getField rootElement "wards")
      || !truthy (getField (getField rootElement "wards") "ward") then []
  else (toArray (getField (getField rootElement "wards") "ward")).map normWard

/-- The per-committee mapping inside `parseCommitteesResponse`. -/
def normCommittee (committee : JVal) : CommitteeOut :=
  { committeeid := jOr (getField committee "committeeid") (.str "")
  , committeetitle := jOr (getField committee "committeetitle") (.str "")
  , committeedescription := jOr (getField committee "committeedescription") (.str "")
  , committeetype := jOr (getField committee "committeetype") (.str "") }

/-- `ModgovClient.parseCommitteesResponse` after XML parsing. -/
def parseCommitteesJ (j : JVal) : List CommitteeOut :=
  let committeesElement := getField j "committees"
  if !truthy committeesElement || !truthy (getField committeesElement "committee") then []
  else (toArray (getField committeesElement "committee")).map normCommittee

/-- The per-event mapping inside `parseCalendarEventsResponse`. -/
def normCalendarEvent (event : JVal) : CalendarEventOut :=
  { eventid := jOr (getField event "eventid") (.str "")
  , eventtitle := jOr (getField event "eventtitle") (.str "")
  , eventdate := jOr (getField event "eventdate") (.str "")
  , eventdescription := jOr (getField event "eventdescription") (.str "")
  , eventlocation := jOr (getField event "eventlocation") (.str "") }

/-- `ModgovClient.parseCalendarEventsResponse` after XML parsing. -/
def parseCalendarEventsJ (j : JVal) : List CalendarEventOut :=
  let eventsElement := getField j "calendarevents"
  if !truthy eventsElement || !truthy (getField eventsElement "event") then []
  else (toArray (getField eventsElement "event")).map normCalendarEvent

/-- The meeting mapping of structure 1a (committee-nested `getmeetings`). -/
def normMeetingCommittee (committee meeting : JVal) : MeetingOut :=
  { meetingid := jOr (getField meeting "meetingid") (.str "")
  , meetingtitle := jOr (getField meeting "meetingstatus") (.str "Council Meeting")
  , meetingdate := jOr (getField meeting "meetingdate") (.str "")
  , meetingtime := jOr (getField meeting "meetingtime") (.str "")
  , meetinglocation := .str ""
  , committeeid := jOr (getField committee "committeeid") (.str "")
  , committeetitle := jOr (getField committee "committeetitle") (.str "") }

/-- The meeting mapping of structure 2 (flat `getmeetingsbydate`). -/
def normMeetingByDate (meeting : JVal) : MeetingOut :=
  { meetingid := jOr (getField meeting "meetingid") (.str "")
  , meetingtitle := jOr (getField meeting "meetingstatus") (.str "Council Meeting")
  , meetingdate := jOr (getField meeting "meetingdate") (.str "")
  , meetingtime := jOr (getField meeting "meetingtime") (.str "")
  , meetinglocation := .str ""
  , committeeid := jOr (getField meeting "committeeid") (.str "")
  , committeetitle := jOr (getField meeting "committeetitle") (.str "") }

/-- Structure 2 of `parseMeetingsResponse`: the `getmeetingsbydate` root
(from the `GetAllMeetingsByDate` endpoint). -/
def extractStructure2 (j : JVal) : List MeetingOut :=
  let gmbd := getField j "getmeetingsbydate"
  if truthy gmbd && truthy (getField gmbd "meetings") then
    let meetingsContainer := getField gmbd "meetings"
    if !truthy meetingsContainer || !truthy (getField meetingsContainer "meeting") then []
    else (toArray (getField meetingsContainer "meeting")).map normMeetingByDate
  else []

/-- The shape dispatch of `parseMeetingsResponse` on the parsed XML value:
structure 1a (committee-nested), structure 1b (count-only, normalizes to
the empty list), structure 2, and the final catch-all empty result. -/
def extractMeetings (j : JVal) : List MeetingOut :=
  let gm := getField j "getmeetings"
  if truthy gm && truthy (getField gm "committee") then
    let committee := getField gm "committee"
    let committeeMeetings := getField committee "committeemeetings"
    if !truthy committeeMeetings || !truthy (getField committeeMeetings "meeting") then []
    else (toArray (getField committeeMeetings "meeting")).map
      (normMeetingCommittee committee)
  else if truthy gm && !isNull (getField gm "meetingscount") then []
  else extractStructure2 j

/-- Canonical parish council (interface `ParishCouncil`). -/
structure ParishCouncilOut where
  parishcouncilid : JVal
  parishcounciltitle : JVal
  parishcouncilwebsite : JVal
  parishcouncilcontact : JVal

/-- Canonical election result (interface `ElectionResult`). -/
structure ElectionResultOut where
  electionid : JVal
  electiontitle : JVal
  electiondate : JVal
  results : JVal

/-- Canonical webcast meeting (interface `WebCastMeeting`). -/
structure WebCastMeetingOut where
  meetingid : JVal
  meetingtitle : JVal
  webcasturl : JVal
  meetingdate : JVal

/-- Canonical MP/MEP record (interface `MpOrMepInfo`). -/
structure MpOrMepOut where
  mpid : JVal
  mpname : JVal
  constituency : JVal
  party : JVal
  wards : JVal

/-- The per-council mapping inside `parseParishCouncilsResponse`. -/
def normParishCouncil (council : JVal) : ParishCouncilOut :=
  { parishcouncilid := jOr (getField council "parishcouncilid") (.str "")
  , parishcounciltitle := jOr (getField council "parishcounciltitle") (.str "")
  , parishcouncilwebsite := jOr (getField council "parishcouncilwebsite") (.str "")
  , parishcouncilcontact := jOr (getField council "parishcouncilcontact") (.str "") }

/-- `ModgovClient.parseParishCouncilsResponse` after XML parsing. -/
def parseParishCouncilsJ (j : JVal) : List ParishCouncilOut :=
  let councilsElement := getField j "parishcouncils"
  if !truthy councilsElement
      || !truthy (getField councilsElement "parishcouncil") then []
  else (toArray (getField councilsElement "parishcouncil")).map normParishCouncil

/-- The per-result mapping inside `parseElectionResultsResponse`; the
`results` collection defaults to the empty array. -/
def normElectionResult (result : JVal) : ElectionResultOut :=
  { electionid := jOr (getField result "electionid") (.str "")
  , electiontitle := jOr (getField result "electiontitle") (.str "")
  , electiondate := jOr (getField result "electiondate") (.str "")
  , results := jOr (getField result "results") (.arr []) }

/-- `ModgovClient.parseElectionResultsResponse` after XML parsing. -/
def parseElectionResultsJ (j : JVal) : List ElectionResultOut :=
  let resultsElement := getField j "electionresults"
  if !truthy resultsElement
      || !truthy (getField resultsElement "electionresult") then []
  else (toArray (getField resultsElement "electionresult")).map normElectionResult

/-- The mapping of `parseWebCastMeetingsResponse`'s fallback branch, which
converts regular `getmeetings` meetings to webcast format (`id`/`title`/
`date` field names). -/
def normWebCastFallback (meeting : JVal) : WebCastMeetingOut :=
  { meetingid := jOr (getField meeting "id") (.str "")
  , meetingtitle := jOr (getField meeting "title") (.str "")
  , webcasturl := jOr (getField meeting "webcasturl") (.str "")
  , meetingdate := jOr (getField meeting "date") (.str "") }

/-- The per-meeting mapping of the original `webcastmeetings` branch. -/
def normWebCastMeeting (meeting : JVal) : WebCastMeetingOut :=
  { meetingid := jOr (getField meeting "meetingid") (.str "")
  , meetingtitle := jOr (getField meeting "meetingtitle") (.str "")
  , webcasturl := jOr (getField meeting "webcasturl") (.str "")
  , meetingdate := jOr (getField meeting "meetingdate") (.str "") }

/-- `ModgovClient.parseWebCastMeetingsResponse` after XML parsing: when
the `webcastmeetings` root is absent it falls back to a `getmeetings`
committee structure, flattening each committee's `meeting` children;
otherwise it normalizes the `webcastmeeting` children. -/
def parseWebCastMeetingsJ (j : JVal) : List WebCastMeetingOut :=
  let meetingsElement := getField j "webcastmeetings"
  if !truthy meetingsElement && truthy (getField j "getmeetings")
      && truthy (getField (getField j "getmeetings") "committee") then
    let committees := toArray (getField (getField j "getmeetings") "committee")
    let allMeetings := committees.flatMap fun committee =>
      if truthy (getField committee "meeting") then
        toArray (getField committee "meeting")
      else []
    allMeetings.map normWebCastFallback
  else if !truthy meetingsElement
      || !truthy (getField meetingsElement "webcastmeeting") then []
  else (toArray (getField meetingsElement "webcastmeeting")).map normWebCastMeeting

/-- The per-record mapping inside `parseMpOrMepsAndWardsResponse`
(the upstream uses `fullusername`/`politicalpartytitle`); the `wards`
collection defaults to the empty array. -/
def normMpOrMep (mp : JVal) : MpOrMepOut :=
  { mpid := jOr (getField mp "mpid") (.str "")
  , mpname := jOr (getField mp "fullusername") (.str "")
  , constituency := jOr (getField mp "constituency") (.str "")
  , party := jOr (getField mp "politicalpartytitle") (.str "")
  , wards := jOr (getField mp "wards") (.arr []) }

/-- `ModgovClient.parseMpOrMepsAndWardsResponse` after XML parsing. -/
def parseMpOrMepsAndWardsJ (j : JVal) : List MpOrMepOut :=
  let mpsElement := getField j "mpswards"
  if !truthy mpsElement || !truthy (getField mpsElement "mps")
      || !truthy (getField (getField mpsElement "mps") "mp") then []
  else (toArray (getField (getField mpsElement "mps") "mp")).map normMpOrMep

/-! ## Meetings response guards and error wrapping (modgov-client.ts) -/

/-- First guard of `parseMeetingsResponse`: empty / whitespace-only body. -/
def guardEmpty (s : String) : Bool :=
  decide (trimL s.data = [])

/-- Second guard: the trimmed body starts with neither `<?xml` nor `<`. -/
def guardNonXml (s : String) : Bool :=
  !isPrefB "<?xml".data (trimL s.data) && !isPrefB "<".data (trimL s.data)

/-- Third guard: the body looks like an HTML error page (doctype/html
marker, or a `<title>` tag together with the word `Error`). -/
def guardHtml (s : String) : Bool :=
  isPrefB "<!DOCTYPE".data (trimL s.data)
  || isPrefB "<html".data (trimL s.data)
  || isPrefB "<HTML".data (trimL s.data)
  || (containsSub s.data "<title>".data && containsSub s.data "Error".data)

/-- Detailed message thrown on an empty body. -/
def emptyRespMsg : String :=
  "Server returned empty response. This usually indicates a server-side bug or missing parameters."

/-- Detailed message thrown on a non-XML body (quotes the first 100
characters). -/
def nonXmlRespMsg (x : String) : String :=
  "Server returned non-XML response: \"" ++ String.mk (x.data.take 100)
    ++ "...\". Expected XML data but got different format. This usually indicates a server-side bug or missing parameters."

/-- Detailed message thrown on an HTML error page (quotes the first 200
characters). -/
def htmlRespMsg (x : String) : String :=
  "Server returned HTML error page instead of XML data. This usually indicates a server-side bug or missing parameters. Response preview: "
    ++ String.mk (x.data.take 200) ++ "..."

/-- The body of `parseMeetingsResponse`'s `try` block: the three guards in
source order, then XML parsing (the external `parseStringPromise`,
abstracted as the `parseXml` oracle), then shape dispatch. -/
def parseMeetingsBody (parseXml : String → Except String JVal)
    (xmlData : String) : Except String (List MeetingOut) :=
  if guardEmpty xmlData then .error emptyRespMsg
  else if guardNonXml xmlData then .error (nonXmlRespMsg xmlData)
  else if guardHtml xmlData then .error (htmlRespMsg xmlData)
  else
    match parseXml xmlData with
    | .ok j => .ok (extractMeetings j)
    | .error e => .error e

/-- `ModgovClient.parseMeetingsResponse`: the `try`/`catch` replaces every
failure of the body — the guard throws included — by the generic
`'Failed to parse meetings response'`. -/
def parseMeetingsResponse (parseXml : String → Except String JVal)
    (xmlData : String) : Except String (List MeetingOut) :=
  match parseMeetingsBody parseXml xmlData with
  | .ok ms => .ok ms
  | .error _ => .error "Failed to parse meetings response"

/-- The relevant parts of an axios response object. -/
structure ApiResponse where
  status : Option Int
  data : Option String

/-- The `try` block of `ModgovClient.handleApiResponse`: non-200 truthy
status and missing/empty body fail; otherwise the body is handed to the
operation's parser. -/
def handleApiInner {α : Type} (response : ApiResponse)
    (parser : String → Except String α) : Except String α :=
  if (match response.status with
      | some st => st != 0 && st != 200
      | none => false) then
    .error ("API request failed with status code "
      ++ toString (response.status.getD 0))
  else
    match response.data with
    | some d => if d == "" then .error "No data received from API" else parser d
    | none => .error "No data received from API"

/-- `ModgovClient.handleApiResponse`: the `catch` re-throws every failure
with the `'API parsing failed: '` context prefix. -/
def handleApiResponse {α : Type} (response : ApiResponse)
    (parser : String → Except String α) : Except String α :=
  match handleApiInner response parser with
  | .ok x => .ok x
  | .error e => .error ("API parsing failed: " ++ e)

/-! ## Endpoint resolution (ModgovClient.getEndpointUrl) -/

/-- The service script path segment. -/
def mgScript : List Char := "/mgWebService.asmx".data

/-- JS `baseUrl.replace(/\/democracy\/?$/, '')`. -/
def stripDemocracySuffix (s : List Char) : List Char :=
  if endsB s "/democracy/".data then s.take (s.length - 11)
  else if endsB s "/democracy".data then s.take (s.length - 10)
  else s

/-- JS `baseUrl.replace(/^https?:\/\//, '')`. -/
def dropUrlScheme (s : List Char) : List Char :=
  if isPrefB "https://".data s then s.drop 8
  else if isPrefB "http://".data s then s.drop 7
  else s

/-- `ModgovClient.getEndpointUrl`: strip `?WSDL` (first occurrence, as JS
`String.replace`) and one trailing slash; keep URLs already referencing
the service script; rewrite a `/democracy` suffix; otherwise rebuild from
the domain with scheme `https`; finally append `/operation`. -/
def getEndpointUrl (siteUrl operation : List Char) : List Char :=
  let baseUrl := dropTrailingSlash (replaceFirst siteUrl "?WSDL".data [])
  let webServiceUrl :=
    if containsSub baseUrl mgScript then baseUrl
    else if endsB baseUrl "/democracy".data || endsB baseUrl "/democracy/".data then
      stripDemocracySuffix baseUrl ++ "/democracy/mgWebService.asmx".data
    else if !containsSub baseUrl mgScript then
      match splitSep baseUrl with
      | [_, rest] =>
        "https://".data ++ rest.takeWhile (fun c => c != '/') ++ mgScript
      | _ => "https://".data ++ dropUrlScheme baseUrl ++ mgScript
    else baseUrl
  webServiceUrl ++ '/' :: operation

/-! ## Rate limiter (ModgovClient.checkRateLimit) -/

/-- `Map.get` on the association-list model of the rate-limiter map. -/
def rlFind : List (List Char × Int) → List Char → Option Int
  | [], _ => none
  | (k, v) :: rest, d => if k = d then some v else rlFind rest d

/-- `Map.set`: replace the existing entry or append a new one. -/
def rlSet : List (List Char × Int) → List Char → Int → List (List Char × Int)
  | [], d, v => [(d, v)]
  | (k, w) :: rest, d, v =>
    if k = d then (d, v) :: rest else (k, w) :: rlSet rest d v

/-- Modelled from the spec: the hostname component extracted by the
platform's `new URL(siteUrl).hostname` for ordinary http/https URLs — the
authority after the scheme separator, up to the first `/`, `:`, `?` or
`#`.  The `URL` class itself is a platform API, not repository code. -/
def urlHostname (url : List Char) : List Char :=
  match splitSep url with
  | _ :: rest :: _ =>
    rest.takeWhile (fun c => !(c = '/' || c = ':' || c = '?' || c = '#'))
  | _ => []

/-- The scheme+host pair of a URL — the "origin" in the spec's glossary
sense, used to state distinctness of origins. -/
def urlOrigin (url : List Char) : List Char × List Char :=
  (url.takeWhile (fun c => c != ':'), urlHostname url)

/-- `rateLimitMs = 1000`: the fixed per-domain interval. -/
def rateLimitMs : Int := 1000

/-- `ModgovClient.checkRateLimit` as a step function: `now` is the
`Date.now()` read on entry, `recordTime` the `Date.now()` read after the
sleep; the result is the sleep duration requested by the `setTimeout`
(0 when no sleep happens) together with the updated map. -/
def checkRateLimit (limiter : List (List Char × Int)) (siteUrl : List Char)
    (now recordTime : Int) : Int × List (List Char × Int) :=
  let domain := urlHostname siteUrl
  let lastRequest := (rlFind limiter domain).getD 0
  let waitTime :=
    if now - lastRequest < rateLimitMs then rateLimitMs - (now - lastRequest)
    else 0
  (waitTime, rlSet limiter domain recordTime)

/-! ## getMeetings parameter construction (ModgovClient.getMeetings) -/

/-- Truthiness of an optional string argument (`undefined` and `''` are
falsy). -/
def truthyOptStr : Option String → Bool
  | none => false
  | some s => !(s == "")

/-- The query-parameter object built by `ModgovClient.getMeetings`:
`lCommitteeId` always; the caller's `sFromDate`/`sToDate` only when both
are truthy, else the current-calendar-year defaults (the documented
server-bug workaround). -/
def getMeetingsParams (committeeId : Int) (fromDate toDate : Option String)
    (currentYear : Nat) : List (String × String) :=
  if truthyOptStr fromDate && truthyOptStr toDate then
    [("lCommitteeId", toString committeeId),
     ("sFromDate", fromDate.getD ""),
     ("sToDate", toDate.getD "")]
  else
    [("lCommitteeId", toString committeeId),
     ("sFromDate", toString currentYear ++ "-01-01"),
     ("sToDate", toString currentYear ++ "-12-31")]

/-! ## Field-definedness predicates and shape predicates for the claims -/

/-- All required/optional fields of a normalized committee are defined. -/
def committeeFieldsDefined (c : CommitteeOut) : Bool :=
  !isNull c.committeeid && !isNull c.committeetitle
  && !isNull c.committeedescription && !isNull c.committeetype

/-- All fields of a normalized calendar event are defined. -/
def calendarEventFieldsDefined (e : CalendarEventOut) : Bool :=
  !isNull e.eventid && !isNull e.eventtitle && !isNull e.eventdate
  && !isNull e.eventdescription && !isNull e.eventlocation

/-- The directly-normalized fields of a ward element are defined. -/
def wardFieldsDefined (w : WardOut) : Bool :=
  !isNull w.wardtitle && !isNull w.councillorcount

/-- All fields of a normalized meeting are defined. -/
def meetingFieldsDefined (m : MeetingOut) : Bool :=
  !isNull m.meetingid && !isNull m.meetingtitle && !isNull m.meetingdate
  && !isNull m.meetingtime && !isNull m.meetinglocation
  && !isNull m.committeeid && !isNull m.committeetitle

/-- All fields of a normalized parish council are defined. -/
def parishCouncilFieldsDefined (p : ParishCouncilOut) : Bool :=
  !isNull p.parishcouncilid && !isNull p.parishcounciltitle
  && !isNull p.parishcouncilwebsite && !isNull p.parishcouncilcontact

/-- All fields of a normalized election result are defined. -/
def electionResultFieldsDefined (r : ElectionResultOut) : Bool :=
  !isNull r.electionid && !isNull r.electiontitle && !isNull r.electiondate
  && !isNull r.results

/-- All fields of a normalized webcast meeting are defined. -/
def webCastMeetingFieldsDefined (w : WebCastMeetingOut) : Bool :=
  !isNull w.meetingid && !isNull w.meetingtitle && !isNull w.webcasturl
  && !isNull w.meetingdate

/-- All fields of a normalized MP/MEP record are defined. -/
def mpOrMepFieldsDefined (m : MpOrMepOut) : Bool :=
  !isNull m.mpid && !isNull m.mpname && !isNull m.constituency
  && !isNull m.party && !isNull m.wards

/-- A parsed meetings response whose `getmeetings` root carries a
meetings-count field and no committee (meeting) nodes. -/
def countOnlyShape (j : JVal) : Bool :=
  truthy (getField j "getmeetings")
  && !truthy (getField (getField j "getmeetings") "committee")
  && !isNull (getField (getField j "getmeetings") "meetingscount")

/-- A parsed value matching none of the recognized meetings shapes
(no usable `getmeetings` committee/count branch, no usable
`getmeetingsbydate` branch). -/
def unrecognizedShape (j : JVal) : Bool :=
  (!truthy (getField j "getmeetings")
    || (!truthy (getField (getField j "getmeetings") "committee")
        && isNull (getField (getField j "getmeetings") "meetingscount")))
  && (!truthy (getField j "getmeetingsbydate")
      || !truthy (getField (getField j "getmeetingsbydate") "meetings"))

/-- All three `parseMeetingsResponse` guards pass for this body. -/
def meetingsGuardsPass (s : String) : Bool :=
  !guardEmpty s && !guardNonXml s && !guardHtml s

/-! ## Concrete test inputs used by counterexamples and witnesses -/

/-- A parsed councillors response whose nested councillor record carries
none of the `Councillor` interface's fields. -/
def cexCouncillors : JVal :=
  .obj [("councillorsbyward", .obj [("wards", .obj [("ward", .obj
    [("wardtitle", .str "Abbey"),
     ("councillors", .obj [("councillor", .obj [("foo", .str "1")])])])])])]

/-- A well-formed XML body that matches no recognized meetings shape but
trips the HTML-error-page heuristic (`<title>` plus `Error`). -/
def cexHtmlTitleBody : String := "<data><title>Error</title></data>"

/-- The parse of `cexHtmlTitleBody`. -/
def cexHtmlTitleParsed : JVal := .obj [("data", .obj [("title", .str "Error")])]

/-- An XML-parser oracle that accepts everything as `cexHtmlTitleParsed`. -/
def cexHtmlTitleParseXml : String → Except String JVal :=
  fun _ => .ok cexHtmlTitleParsed

/-- A count-only meetings body and its parse. -/
def countOnlyBody : String :=
  "<getmeetings><meetingscount>0</meetingscount></getmeetings>"

/-- The parse of `countOnlyBody`. -/
def countOnlyParsed : JVal :=
  .obj [("getmeetings", .obj [("meetingscount", .str "0")])]

/-- An XML-parser oracle returning `countOnlyParsed`. -/
def countOnlyParseXml : String → Except String JVal :=
  fun _ => .ok countOnlyParsed

/-- An HTML error page body (the spec's `<title>Error</title>` scenario). -/
def htmlErrorBody : String := "<html><head><title>Error</title></head></html>"

/-- An XML-parser oracle that rejects everything (the guards fire before
parsing, so its behavior is irrelevant). -/
def rejectParseXml : String → Except String JVal :=
  fun _ => .error "xml2js rejected"

/-- Two site URLs with distinct origins (different schemes) but the same
hostname. -/
def siteUrlHttps : List Char := "https://example.com".data

/-- See `siteUrlHttps`. -/
def siteUrlHttp : List Char := "http://example.com".data

/-! ## Structured URL rendering, for stating the endpoint-resolution claim -/

/-- Character class for a plain hostname: lowercase letters, digits, dots
and hyphens. -/
def hostOkChar (c : Char) : Bool :=
  c.isLower || c.isDigit || c = '.' || c = '-'

/-- A site URL's scheme+authority+path part, rendered from components. -/
def renderBase (isHttps : Bool) (host path : List Char) : List Char :=
  (if isHttps then "https".data else "http".data) ++ "://".data ++ host ++ path

/-- A site URL as the caller may loosely write it: the base, an optional
trailing slash, an optional `?WSDL` query. -/
def renderUrl (isHttps : Bool) (host path : List Char)
    (slash wsdl : Bool) : List Char :=
  renderBase isHttps host path ++ (if slash then ['/'] else [])
    ++ (if wsdl then "?WSDL".data else [])
/-! ### Lemmas about the primitives -/

theorem isPrefB_append_self (p t : List Char) : isPrefB p (p ++ t) = true := by
  induction p with
  | nil => rfl
  | cons a as ih => simp [isPrefB, ih]

theorem isPrefB_of_head_ne {a b : Char} (w v : List Char) (h : a ≠ b) :
    isPrefB (a :: w) (b :: v) = false := by
  simp [isPrefB, h]

theorem isPrefB_nil_right {a : Char} (w : List Char) :
    isPrefB (a :: w) [] = false := rfl

theorem isPrefB_head {a : Char} {w v : List Char}
    (h : isPrefB (a :: w) v = true) : v.head? = some a := by
  cases v with
  | nil => simp [isPrefB] at h
  | cons b t =>
    by_cases hab : a = b
    · subst hab; rfl
    · rw [isPrefB_of_head_ne _ _ hab] at h; cases h

theorem isPrefB_exists {p v : List Char} (h : isPrefB p v = true) :
    ∃ t, v = p ++ t := by
  induction p generalizing v with
  | nil => exact ⟨v, rfl⟩
  | cons a as ih =>
    cases v with
    | nil => simp [isPrefB] at h
    | cons b t =>
      by_cases hab : a = b
      · subst hab
        simp only [isPrefB, if_pos rfl] at h
        obtain ⟨u, hu⟩ := ih h
        exact ⟨u, by simp [hu]⟩
      · rw [isPrefB_of_head_ne _ _ hab] at h; cases h

/-- A pattern whose head character does not occur in `s` is not a prefix
of `s`. -/
theorem isPrefB_false_of_not_mem {a : Char} {w s : List Char}
    (h : a ∉ s) : isPrefB (a :: w) s = false := by
  cases s with
  | nil => rfl
  | cons b t =>
    have : a ≠ b := fun hab => h (hab ▸ List.mem_cons_self _ _)
    exact isPrefB_of_head_ne _ _ this

/-- `replaceFirst` is the identity when the pattern's head character does
not occur in the string. -/
theorem replaceFirst_no_occ {a : Char} (w r : List Char) :
    ∀ s : List Char, a ∉ s → replaceFirst s (a :: w) r = s := by
  intro s
  induction s with
  | nil => intro _; rfl
  | cons c t ih =>
    intro h
    have hnm : a ∉ c :: t := h
    rw [replaceFirst, isPrefB_false_of_not_mem hnm]
    simp only [if_neg Bool.false_ne_true]
    have : a ∉ t := fun hm => h (List.mem_cons_of_mem _ hm)
    rw [ih this]

/-- `replaceFirst` on a string ending in the pattern, whose head character
occurs nowhere earlier, replaces exactly that trailing occurrence. -/
theorem replaceFirst_trailing {a : Char} (w r : List Char) :
    ∀ s : List Char, a ∉ s →
      replaceFirst (s ++ a :: w) (a :: w) r = s ++ r := by
  intro s
  induction s with
  | nil =>
    intro _
    show replaceFirst (a :: w) (a :: w) r = r
    have hpre : isPrefB (a :: w) (a :: w) = true := by
      simpa using isPrefB_append_self (a :: w) []
    rw [replaceFirst, if_pos hpre]
    simp [List.drop_length]
  | cons c t ih =>
    intro h
    have hca : a ≠ c := fun hac => h (hac ▸ List.mem_cons_self _ _)
    show replaceFirst (c :: (t ++ a :: w)) (a :: w) r = c :: t ++ r
    rw [replaceFirst, isPrefB_of_head_ne _ _ hca]
    simp only [if_neg Bool.false_ne_true]
    have : a ∉ t := fun hm => h (List.mem_cons_of_mem _ hm)
    rw [ih this]
    simp

theorem dropTrailingSlash_append_slash (b : List Char) :
    dropTrailingSlash (b ++ ['/']) = b := by
  simp [dropTrailingSlash, List.reverse_append]

theorem dropTrailingSlash_of_last_ne (s : List Char)
    (h : s.reverse.head? ≠ some '/') : dropTrailingSlash s = s := by
  unfold dropTrailingSlash
  cases hs : s.reverse with
  | nil => rfl
  | cons c t =>
    have hne : c ≠ '/' := by
      intro hcc
      exact h (by rw [hs, hcc]; rfl)
    simp [hne]

theorem splitSep_no_sep (s : List Char) (h : ':' ∉ s) : splitSep s = [s] := by
  induction s with
  | nil => rw [splitSep.eq_def]
  | cons c rest ih =>
    have hc : c ≠ ':' := fun hcc => h (hcc ▸ List.mem_cons_self _ _)
    have hr : ':' ∉ rest := fun hm => h (List.mem_cons_of_mem _ hm)
    rw [splitSep.eq_def]
    simp only []
    rw [if_neg (fun hand => hc hand.1)]
    rw [ih hr]

theorem splitSep_once (A B : List Char) (hA : ':' ∉ A) (hB : ':' ∉ B) :
    splitSep (A ++ ':' :: '/' :: '/' :: B) = [A, B] := by
  induction A with
  | nil =>
    rw [List.nil_append, splitSep.eq_def]
    simp only []
    rw [if_pos (by simp)]
    show [] :: splitSep B = [[], B]
    rw [splitSep_no_sep B hB]
  | cons c rest ih =>
    have hc : c ≠ ':' := fun hcc => hA (hcc ▸ List.mem_cons_self _ _)
    have hr : ':' ∉ rest := fun hm => hA (List.mem_cons_of_mem _ hm)
    rw [List.cons_append, splitSep.eq_def]
    simp only []
    rw [if_neg (fun hand => hc hand.1)]
    rw [ih hr]

theorem takeWhile_append_of_all (p : Char → Bool) (A B : List Char)
    (h : ∀ a ∈ A, p a = true) :
    (A ++ B).takeWhile p = A ++ B.takeWhile p := by
  induction A with
  | nil => rfl
  | cons c rest ih =>
    have hc : p c = true := h c (List.mem_cons_self _ _)
    rw [List.cons_append, List.takeWhile_cons, hc]
    simp only [ite_true]
    rw [ih (fun a ha => h a (List.mem_cons_of_mem _ ha)), List.cons_append]

theorem endsB_append_self (b p : List Char) : endsB (b ++ p) p = true := by
  unfold endsB
  rw [List.reverse_append]
  exact isPrefB_append_self _ _

theorem endsB_exists {s p : List Char} (h : endsB s p = true) :
    ∃ pre, s = pre ++ p := by
  unfold endsB at h
  obtain ⟨t, ht⟩ := isPrefB_exists h
  refine ⟨t.reverse, ?_⟩
  have := congrArg List.reverse ht
  simpa [List.reverse_append] using this

theorem endsB_last {s : List Char} {q : List Char} {c : Char}
    (h : endsB s (q ++ [c]) = true) : s.reverse.head? = some c := by
  unfold endsB at h
  rw [List.reverse_append] at h
  exact isPrefB_head h

theorem endsB_false_of_last_ne {s q : List Char} {c : Char}
    (h : s.reverse.head? ≠ some c) : endsB s (q ++ [c]) = false := by
  cases he : endsB s (q ++ [c]) with
  | false => rfl
  | true => exact absurd (endsB_last he) h

/-! ### Lemmas about the matcher's sorting and filtering -/

theorem mem_insertDesc (m : CouncilMatch) :
    ∀ l a, a ∈ insertDesc m l → a = m ∨ a ∈ l := by
  intro l
  induction l with
  | nil =>
    intro a h
    rw [insertDesc] at h
    exact Or.inl (List.mem_singleton.mp h)
  | cons x xs ih =>
    intro a h
    rw [insertDesc] at h
    by_cases hc : x.score ≤ m.score
    · rw [if_pos hc, List.mem_cons] at h
      rcases h with h | h
      · exact Or.inl h
      · exact Or.inr h
    · rw [if_neg hc, List.mem_cons] at h
      rcases h with h | h
      · exact Or.inr (h ▸ List.mem_cons_self _ _)
      · rcases ih a h with h' | h'
        · exact Or.inl h'
        · exact Or.inr (List.mem_cons_of_mem _ h')

theorem pairwise_insertDesc (m : CouncilMatch) :
    ∀ l, List.Pairwise (fun a b : CouncilMatch => b.score ≤ a.score) l →
      List.Pairwise (fun a b : CouncilMatch => b.score ≤ a.score)
        (insertDesc m l) := by
  intro l
  induction l with
  | nil => intro _; simp [insertDesc]
  | cons x xs ih =>
    intro h
    rw [List.pairwise_cons] at h
    rw [insertDesc]
    by_cases hc : x.score ≤ m.score
    · rw [if_pos hc, List.pairwise_cons]
      refine ⟨?_, List.pairwise_cons.mpr h⟩
      intro b hb
      rw [List.mem_cons] at hb
      rcases hb with rfl | hb
      · exact hc
      · exact le_trans (h.1 b hb) hc
    · rw [if_neg hc, List.pairwise_cons]
      refine ⟨?_, ih h.2⟩
      intro b hb
      rcases mem_insertDesc m xs b hb with rfl | hb'
      · exact le_of_lt (lt_of_not_le hc)
      · exact h.1 b hb'

theorem mem_sortDesc : ∀ l a, a ∈ sortDesc l → a ∈ l := by
  intro l
  induction l with
  | nil => intro a h; rw [sortDesc] at h; cases h
  | cons x xs ih =>
    intro a h
    rw [sortDesc] at h
    rcases mem_insertDesc x (sortDesc xs) a h with rfl | h'
    · exact List.mem_cons_self _ _
    · exact List.mem_cons_of_mem _ (ih a h')

theorem pairwise_sortDesc :
    ∀ l, List.Pairwise (fun a b : CouncilMatch => b.score ≤ a.score)
      (sortDesc l) := by
  intro l
  induction l with
  | nil => rw [sortDesc]; exact List.Pairwise.nil
  | cons x xs ih => rw [sortDesc]; exact pairwise_insertDesc x _ ih

theorem collectMatches_score (query : String) (minScore : ℚ) :
    ∀ l m, m ∈ collectMatches query minScore l → minScore ≤ m.score := by
  intro l
  induction l with
  | nil => intro m h; rw [collectMatches] at h; cases h
  | cons c rest ih =>
    intro m h
    rw [collectMatches] at h
    by_cases hc : minScore ≤ calculateSimilarity query c.council
    · simp only [if_pos hc] at h
      rw [List.mem_cons] at h
      rcases h with rfl | h
      · exact hc
      · exact ih m h
    · simp only [if_neg hc] at h
      exact ih m h

/-! ### Lemmas about dynamic values and the normalizers -/

theorem truthy_isNull_false {x : JVal} (h : truthy x = true) :
    isNull x = false := by
  cases x <;> simp_all [truthy, isNull]

theorem isNull_jOr {x d : JVal} (hd : isNull d = false) :
    isNull (jOr x d) = false := by
  unfold jOr
  by_cases hx : truthy x = true
  · rw [if_pos hx]; exact truthy_isNull_false hx
  · rw [if_neg hx]; exact hd

theorem jOr_of_isNull {x : JVal} (d : JVal) (hx : isNull x = true) :
    jOr x d = d := by
  cases x <;> simp_all [isNull, jOr, truthy]

theorem mem_parseCommitteesJ {j : JVal} {c : CommitteeOut}
    (h : c ∈ parseCommitteesJ j) : ∃ s, c = normCommittee s := by
  unfold parseCommitteesJ at h
  dsimp only at h
  split_ifs at h
  · cases h
  · obtain ⟨s, _, hs⟩ := List.mem_map.mp h
    exact ⟨s, hs.symm⟩

theorem mem_parseCalendarEventsJ {j : JVal} {e : CalendarEventOut}
    (h : e ∈ parseCalendarEventsJ j) : ∃ s, e = normCalendarEvent s := by
  unfold parseCalendarEventsJ at h
  dsimp only at h
  split_ifs at h
  · cases h
  · obtain ⟨s, _, hs⟩ := List.mem_map.mp h
    exact ⟨s, hs.symm⟩

theorem mem_parseCouncillorsJ {j : JVal} {w : WardOut}
    (h : w ∈ parseCouncillorsJ j) : ∃ s, w = normWard s := by
  unfold parseCouncillorsJ at h
  dsimp only at h
  split_ifs at h
  · cases h
  · obtain ⟨s, _, hs⟩ := List.mem_map.mp h
    exact ⟨s, hs.symm⟩

theorem mem_parseParishCouncilsJ {j : JVal} {p : ParishCouncilOut}
    (h : p ∈ parseParishCouncilsJ j) : ∃ s, p = normParishCouncil s := by
  unfold parseParishCouncilsJ at h
  dsimp only at h
  split_ifs at h
  · cases h
  · obtain ⟨s, _, hs⟩ := List.mem_map.mp h
    exact ⟨s, hs.symm⟩

theorem mem_parseElectionResultsJ {j : JVal} {r : ElectionResultOut}
    (h : r ∈ parseElectionResultsJ j) : ∃ s, r = normElectionResult s := by
  unfold parseElectionResultsJ at h
  dsimp only at h
  split_ifs at h
  · cases h
  · obtain ⟨s, _, hs⟩ := List.mem_map.mp h
    exact ⟨s, hs.symm⟩

theorem mem_parseMpOrMepsAndWardsJ {j : JVal} {m : MpOrMepOut}
    (h : m ∈ parseMpOrMepsAndWardsJ j) : ∃ s, m = normMpOrMep s := by
  unfold parseMpOrMepsAndWardsJ at h
  dsimp only at h
  split_ifs at h
  · cases h
  · obtain ⟨s, _, hs⟩ := List.mem_map.mp h
    exact ⟨s, hs.symm⟩

theorem mem_parseWebCastMeetingsJ {j : JVal} {w : WebCastMeetingOut}
    (h : w ∈ parseWebCastMeetingsJ j) :
    (∃ s, w = normWebCastFallback s) ∨ ∃ s, w = normWebCastMeeting s := by
  unfold parseWebCastMeetingsJ at h
  dsimp only at h
  split_ifs at h
  · obtain ⟨s, _, hs⟩ := List.mem_map.mp h
    exact Or.inl ⟨s, hs.symm⟩
  · cases h
  · obtain ⟨s, _, hs⟩ := List.mem_map.mp h
    exact Or.inr ⟨s, hs.symm⟩

theorem mem_extractStructure2 {j : JVal} {m : MeetingOut}
    (h : m ∈ extractStructure2 j) : ∃ s, m = normMeetingByDate s := by
  unfold extractStructure2 at h
  dsimp only at h
  split_ifs at h
  · cases h
  · obtain ⟨s, _, hs⟩ := List.mem_map.mp h
    exact ⟨s, hs.symm⟩
  · cases h

theorem mem_extractMeetings {j : JVal} {m : MeetingOut}
    (h : m ∈ extractMeetings j) :
    (∃ c s, m = normMeetingCommittee c s) ∨ ∃ s, m = normMeetingByDate s := by
  unfold extractMeetings at h
  dsimp only at h
  split_ifs at h
  · cases h
  · obtain ⟨s, _, hs⟩ := List.mem_map.mp h
    exact Or.inl ⟨_, s, hs.symm⟩
  · cases h
  · exact Or.inr (mem_extractStructure2 h)

/-! ### Lemmas about the rate-limiter map -/

theorem rlFind_rlSet_self :
    ∀ (st : List (List Char × Int)) (d : List Char) (v : Int),
      rlFind (rlSet st d v) d = some v := by
  intro st
  induction st with
  | nil => intro d v; simp [rlSet, rlFind]
  | cons kv rest ih =>
    intro d v
    obtain ⟨k, w⟩ := kv
    rw [rlSet]
    by_cases hk : k = d
    · rw [if_pos hk, rlFind, if_pos rfl]
    · rw [if_neg hk, rlFind, if_neg hk]
      exact ih d v

theorem rlFind_rlSet_other :
    ∀ (st : List (List Char × Int)) (d d' : List Char) (v : Int),
      d' ≠ d → rlFind (rlSet st d' v) d = rlFind st d := by
  intro st
  induction st with
  | nil =>
    intro d d' v hne
    simp [rlSet, rlFind, hne]
  | cons kv rest ih =>
    intro d d' v hne
    obtain ⟨k, w⟩ := kv
    rw [rlSet]
    by_cases hk : k = d'
    · rw [if_pos hk, rlFind, rlFind, hk]
      by_cases hd : d' = d
      · exact absurd hd hne
      · rw [if_neg hd, if_neg hne]
    · rw [if_neg hk, rlFind, rlFind]
      by_cases hd : k = d
      · rw [if_pos hd, if_pos hd]
      · rw [if_neg hd, if_neg hd]
        exact ih d d' v hne

theorem isNull_jOr_str (x : JVal) (s : String) :
    isNull (jOr x (.str s)) = false :=
  isNull_jOr rfl

theorem isNull_jOr_arr (x : JVal) (l : List JVal) :
    isNull (jOr x (.arr l)) = false :=
  isNull_jOr rfl

theorem isNull_str (s : String) : isNull (JVal.str s) = false := rfl

/-! ### Lemmas for endpoint resolution -/

theorem head?_append_left {α : Type} {l l' : List α} (h : l ≠ []) :
    (l ++ l').head? = l.head? := by
  cases l with
  | nil => exact absurd rfl h
  | cons a t => rfl

theorem reverse_head_ne_slash {s : List Char} {p : Char → Bool}
    (hs : ∀ c ∈ s, p c = true) (hp : p '/' = false) :
    s.reverse.head? ≠ some '/' := by
  intro h
  cases hrev : s.reverse with
  | nil => rw [hrev] at h; cases h
  | cons a t =>
    rw [hrev] at h
    injection h with h'
    have ha : '/' ∈ s := by
      have hmem : a ∈ s.reverse := by rw [hrev]; exact List.mem_cons_self a t
      exact h' ▸ List.mem_reverse.mp hmem
    rw [hs '/' ha] at hp
    cases hp

theorem hostOk_ne {c : Char} (h : hostOkChar c = true) :
    c ≠ '?' ∧ c ≠ ':' ∧ c ≠ '/' := by
  refine ⟨?_, ?_, ?_⟩ <;> rintro rfl <;> revert h <;> decide

/-- Stripping `?WSDL` and the trailing slash from a rendered URL recovers
the base. -/
theorem strip_renderUrl (isHttps : Bool) (host path : List Char)
    (slash wsdl : Bool)
    (hq : '?' ∉ renderBase isHttps host path)
    (hlast : (renderBase isHttps host path).reverse.head? ≠ some '/') :
    dropTrailingSlash (replaceFirst
        (renderUrl isHttps host path slash wsdl) "?WSDL".data [])
      = renderBase isHttps host path := by
  have hqs : '?' ∉ renderBase isHttps host path
      ++ (if slash then ['/'] else []) := by
    intro hm
    rcases List.mem_append.mp hm with hm | hm
    · exact hq hm
    · cases slash <;> simp_all
  have hrep : ∀ S : List Char, '?' ∉ S →
      replaceFirst S "?WSDL".data [] = S := by
    intro S hS
    rw [show ("?WSDL".data : List Char) = '?' :: "WSDL".data from rfl]
    exact replaceFirst_no_occ _ _ _ hS
  have hrep2 : ∀ S : List Char, '?' ∉ S →
      replaceFirst (S ++ "?WSDL".data) "?WSDL".data [] = S := by
    intro S hS
    rw [show ("?WSDL".data : List Char) = '?' :: "WSDL".data from rfl]
    rw [replaceFirst_trailing _ _ _ hS, List.append_nil]
  have hdrop :
      dropTrailingSlash (renderBase isHttps host path
        ++ (if slash then ['/'] else [])) = renderBase isHttps host path := by
    cases slash
    · rw [if_neg (by simp), List.append_nil]
      exact dropTrailingSlash_of_last_ne _ hlast
    · rw [if_pos rfl]
      exact dropTrailingSlash_append_slash _
  cases wsdl with
  | false =>
    have hru : renderUrl isHttps host path slash false
        = renderBase isHttps host path ++ (if slash then ['/'] else []) := by
      cases slash <;> simp [renderUrl]
    rw [hru, hrep _ hqs]
    exact hdrop
  | true =>
    have hru : renderUrl isHttps host path slash true
        = (renderBase isHttps host path ++ (if slash then ['/'] else []))
          ++ "?WSDL".data := by
      cases slash <;> simp [renderUrl]
    rw [hru, hrep2 _ hqs]
    exact hdrop

/-! ## Claim C8 helper characterizations of getConfidence -/

theorem getConfidence_exact_iff (s : ℚ) :
    getConfidence s = .exact ↔ 95/100 ≤ s := by
  unfold getConfidence
  split_ifs <;> simp_all

theorem getConfidence_high_iff (s : ℚ) :
    getConfidence s = .high ↔ 8/10 ≤ s ∧ s < 95/100 := by
  unfold getConfidence
  split_ifs <;> simp_all

theorem getConfidence_medium_iff (s : ℚ) :
    getConfidence s = .medium ↔ 6/10 ≤ s ∧ s < 8/10 := by
  unfold getConfidence
  split_ifs <;> simp_all <;> intros <;> linarith

theorem getConfidence_low_iff (s : ℚ) :
    getConfidence s = .low ↔ s < 6/10 := by
  unfold getConfidence
  split_ifs <;> simp_all <;> linarith

theorem getConfidence_rank_mono (s t : ℚ) (h : s ≤ t) :
    confRank (getConfidence s) ≤ confRank (getConfidence t) := by
  unfold getConfidence
  split_ifs <;> simp_all [confRank] <;> linarith

/-! ## Claim theorems -/

/-- Claim C5: when the caller of the meetings operation omits both dates,
the outbound parameters carry the default full-current-calendar-year
range `sFromDate = YYYY-01-01`, `sToDate = YYYY-12-31`; in particular,
for current year 2024 they are `2024-01-01` and `2024-12-31`. -/
theorem getMeetings_default_date_range (committeeId : Int) (currentYear : Nat) :
    getMeetingsParams committeeId none none currentYear =
      [("lCommitteeId", toString committeeId),
       ("sFromDate", toString currentYear ++ "-01-01"),
       ("sToDate", toString currentYear ++ "-12-31")] ∧
    getMeetingsParams committeeId none none 2024 =
      [("lCommitteeId", toString committeeId),
       ("sFromDate", "2024-01-01"),
       ("sToDate", "2024-12-31")] :=
  ⟨rfl, rfl⟩

/-- Claim C10: supplying exactly one of `fromDate`/`toDate` to the
meetings operation silently discards the supplied bound — the outbound
parameters equal the no-dates case, carrying the current-calendar-year
defaults. -/
theorem getMeetings_partial_range_discarded (committeeId : Int) (d : String)
    (currentYear : Nat) :
    getMeetingsParams committeeId (some d) none currentYear =
      getMeetingsParams committeeId none none currentYear ∧
    getMeetingsParams committeeId none (some d) currentYear =
      getMeetingsParams committeeId none none currentYear ∧
    getMeetingsParams committeeId (some d) none currentYear =
      [("lCommitteeId", toString committeeId),
       ("sFromDate", toString currentYear ++ "-01-01"),
       ("sToDate", toString currentYear ++ "-12-31")] := by
  refine ⟨?_, ?_, ?_⟩ <;>
    simp [getMeetingsParams, truthyOptStr, Bool.and_false, Bool.false_and]

/-- Claim C9: the similarity scorer gives 1.0 on identical strings, and
more generally on case-insensitively equal strings; in particular
`score("", "") = 1.0`. -/
theorem calculateSimilarity_self_one :
    (∀ s : String, calculateSimilarity s s = 1) ∧
    (∀ q c : String, lowerStr q = lowerStr c → calculateSimilarity q c = 1) ∧
    calculateSimilarity "" "" = 1 := by
  refine ⟨fun s => ?_, fun q c h => ?_, ?_⟩
  · simp [calculateSimilarity]
  · simp [calculateSimilarity, h]
  · rfl

/-- Witness for C9: `Leeds` and `LEEDS` are case-insensitively equal and
score 1.0. -/
theorem calculateSimilarity_self_one_witness :
    lowerStr "Leeds" = lowerStr "LEEDS" ∧ calculateSimilarity "Leeds" "LEEDS" = 1 :=
  ⟨by decide, calculateSimilarity_self_one.2.1 "Leeds" "LEEDS" (by decide)⟩

/-- Claim C8: for scores in `[0, 1]` the confidence tiers are exactly
`Exact ↔ s ≥ 0.95`, `High ↔ 0.8 ≤ s < 0.95`, `Medium ↔ 0.6 ≤ s < 0.8`,
`Low ↔ s < 0.6`, they partition the interval with no gaps, and the tier is
monotone in the score. -/
theorem getConfidence_spec (s : ℚ) (h0 : 0 ≤ s) (h1 : s ≤ 1) :
    (getConfidence s = .exact ↔ 95/100 ≤ s) ∧
    (getConfidence s = .high ↔ 8/10 ≤ s ∧ s < 95/100) ∧
    (getConfidence s = .medium ↔ 6/10 ≤ s ∧ s < 8/10) ∧
    (getConfidence s = .low ↔ s < 6/10) ∧
    (∀ t : ℚ, 0 ≤ t → t ≤ 1 → s ≤ t →
      confRank (getConfidence s) ≤ confRank (getConfidence t)) :=
  ⟨getConfidence_exact_iff s, getConfidence_high_iff s,
   getConfidence_medium_iff s, getConfidence_low_iff s,
   fun t _ _ hst => getConfidence_rank_mono s t hst⟩

/-- Witness for C8 at the boundary scores named by the spec:
0.95 → Exact, 0.94999 → High, 0.8 → High, 0.79999 → Medium,
0.6 → Medium, 0.59999 → Low. -/
theorem getConfidence_spec_witness :
    getConfidence (95/100) = .exact ∧ getConfidence (94999/100000) = .high ∧
    getConfidence (8/10) = .high ∧ getConfidence (79999/100000) = .medium ∧
    getConfidence (6/10) = .medium ∧ getConfidence (59999/100000) = .low :=
  ⟨(getConfidence_spec (95/100) (by norm_num) (by norm_num)).1.mpr (by norm_num),
   (getConfidence_spec (94999/100000) (by norm_num) (by norm_num)).2.1.mpr
     (by norm_num),
   (getConfidence_spec (8/10) (by norm_num) (by norm_num)).2.1.mpr (by norm_num),
   (getConfidence_spec (79999/100000) (by norm_num) (by norm_num)).2.2.1.mpr
     (by norm_num),
   (getConfidence_spec (6/10) (by norm_num) (by norm_num)).2.2.1.mpr (by norm_num),
   (getConfidence_spec (59999/100000) (by norm_num) (by norm_num)).2.2.2.1.mpr
     (by norm_num)⟩

/-- Claim C7: `findMatches` returns a sequence sorted non-increasing by
score in which every match scores at least `minScore`, and an empty or
whitespace-only query yields the empty sequence for any `minScore`. -/
theorem findMatches_spec (councils : List CouncilInfo) (query : String)
    (minScore : ℚ) :
    (trimL query.data = [] → findMatches councils query minScore = []) ∧
    List.Pairwise (fun a b : CouncilMatch => b.score ≤ a.score)
      (findMatches councils query minScore) ∧
    (∀ m ∈ findMatches councils query minScore, minScore ≤ m.score) := by
  refine ⟨fun ht => ?_, ?_, ?_⟩
  · rw [findMatches, if_pos (Or.inr ht)]
  · rw [findMatches]
    by_cases hq : query = "" ∨ trimL query.data = []
    · rw [if_pos hq]; exact List.Pairwise.nil
    · rw [if_neg hq]; exact pairwise_sortDesc _
  · intro m hm
    rw [findMatches] at hm
    by_cases hq : query = "" ∨ trimL query.data = []
    · rw [if_pos hq] at hm; cases hm
    · rw [if_neg hq] at hm
      exact collectMatches_score query minScore councils m
        (mem_sortDesc _ m hm)

/-- Witness for C7: the whitespace-only query returns the empty list. -/
theorem findMatches_spec_witness :
    trimL "   ".data = [] ∧ findMatches [] "   " (3/10) = [] :=
  ⟨by decide, (findMatches_spec [] "   " (3/10)).1 (by decide)⟩

/-- Claim C3 (amended): for every record kind — wards, committees,
meetings, calendar events, parish councils, election results, webcast
meetings and MP/MEP records — every element of the normalizer's returned
collection has all of its mapped fields defined (never absent), with an
absent upstream field mapped to an explicit default: the empty string
(`'0'` for the councillor count, the named `'Council Meeting'` fallback
for meeting titles, and the empty array for election-result and MP ward
collections). The councillor records nested inside wards are passed
through raw, so the invariant covers the normalizers' own mapped fields,
not nested councillors. -/
theorem normalizers_default_fields :
    (∀ j : JVal, ∀ c ∈ parseCommitteesJ j, committeeFieldsDefined c = true) ∧
    (∀ j : JVal, ∀ e ∈ parseCalendarEventsJ j,
      calendarEventFieldsDefined e = true) ∧
    (∀ j : JVal, ∀ w ∈ parseCouncillorsJ j, wardFieldsDefined w = true) ∧
    (∀ s : JVal, isNull (getField s "committeeid") = true →
      (normCommittee s).committeeid = JVal.str "") ∧
    (∀ s : JVal, isNull (getField s "committeedescription") = true →
      (normCommittee s).committeedescription = JVal.str "") ∧
    (∀ s : JVal, isNull (getField s "eventlocation") = true →
      (normCalendarEvent s).eventlocation = JVal.str "") ∧
    (∀ s : JVal, isNull (getField s "wardtitle") = true →
      (normWard s).wardtitle = JVal.str "") ∧
    (∀ s : JVal,
      isNull (getField (getField s "councillors") "councillorcount") = true →
      (normWard s).councillorcount = JVal.str "0") ∧
    (∀ j : JVal, ∀ m ∈ extractMeetings j, meetingFieldsDefined m = true) ∧
    (∀ j : JVal, ∀ p ∈ parseParishCouncilsJ j,
      parishCouncilFieldsDefined p = true) ∧
    (∀ j : JVal, ∀ r ∈ parseElectionResultsJ j,
      electionResultFieldsDefined r = true) ∧
    (∀ j : JVal, ∀ w ∈ parseWebCastMeetingsJ j,
      webCastMeetingFieldsDefined w = true) ∧
    (∀ j : JVal, ∀ m ∈ parseMpOrMepsAndWardsJ j,
      mpOrMepFieldsDefined m = true) ∧
    (∀ c s : JVal, isNull (getField s "meetingstatus") = true →
      (normMeetingCommittee c s).meetingtitle = JVal.str "Council Meeting") ∧
    (∀ s : JVal, isNull (getField s "parishcouncilwebsite") = true →
      (normParishCouncil s).parishcouncilwebsite = JVal.str "") ∧
    (∀ s : JVal, isNull (getField s "results") = true →
      (normElectionResult s).results = JVal.arr []) ∧
    (∀ s : JVal, isNull (getField s "webcasturl") = true →
      (normWebCastMeeting s).webcasturl = JVal.str "") ∧
    (∀ s : JVal, isNull (getField s "wards") = true →
      (normMpOrMep s).wards = JVal.arr []) := by
  refine ⟨?_, ?_, ?_, ?_, ?_, ?_, ?_, ?_, ?_, ?_, ?_, ?_, ?_, ?_, ?_, ?_,
    ?_, ?_⟩
  · intro j c hc
    obtain ⟨s, rfl⟩ := mem_parseCommitteesJ hc
    simp [committeeFieldsDefined, normCommittee, isNull_jOr_str]
  · intro j e he
    obtain ⟨s, rfl⟩ := mem_parseCalendarEventsJ he
    simp [calendarEventFieldsDefined, normCalendarEvent, isNull_jOr_str]
  · intro j w hw
    obtain ⟨s, rfl⟩ := mem_parseCouncillorsJ hw
    simp [wardFieldsDefined, normWard, isNull_jOr_str]
  · exact fun s hs => jOr_of_isNull _ hs
  · exact fun s hs => jOr_of_isNull _ hs
  · exact fun s hs => jOr_of_isNull _ hs
  · exact fun s hs => jOr_of_isNull _ hs
  · exact fun s hs => jOr_of_isNull _ hs
  · intro j m hm
    rcases mem_extractMeetings hm with ⟨c, s, rfl⟩ | ⟨s, rfl⟩
    · simp [meetingFieldsDefined, normMeetingCommittee, isNull_jOr_str,
        isNull_str]
    · simp [meetingFieldsDefined, normMeetingByDate, isNull_jOr_str,
        isNull_str]
  · intro j p hp
    obtain ⟨s, rfl⟩ := mem_parseParishCouncilsJ hp
    simp [parishCouncilFieldsDefined, normParishCouncil, isNull_jOr_str]
  · intro j r hr
    obtain ⟨s, rfl⟩ := mem_parseElectionResultsJ hr
    simp [electionResultFieldsDefined, normElectionResult, isNull_jOr_str,
      isNull_jOr_arr]
  · intro j w hw
    rcases mem_parseWebCastMeetingsJ hw with ⟨s, rfl⟩ | ⟨s, rfl⟩
    · simp [webCastMeetingFieldsDefined, normWebCastFallback, isNull_jOr_str]
    · simp [webCastMeetingFieldsDefined, normWebCastMeeting, isNull_jOr_str]
  · intro j m hm
    obtain ⟨s, rfl⟩ := mem_parseMpOrMepsAndWardsJ hm
    simp [mpOrMepFieldsDefined, normMpOrMep, isNull_jOr_str, isNull_jOr_arr]
  · exact fun c s hs => jOr_of_isNull _ hs
  · exact fun s hs => jOr_of_isNull _ hs
  · exact fun s hs => jOr_of_isNull _ hs
  · exact fun s hs => jOr_of_isNull _ hs
  · exact fun s hs => jOr_of_isNull _ hs

/-- Counterexample to C3 as stated: the wards normalizer passes nested
councillor records through raw, so the returned collection contains a
councillor whose required `councillorid` and `fullusername` fields are
absent. -/
theorem parseCouncillors_raw_councillor_counterexample :
    (parseCouncillorsJ cexCouncillors).map
        (fun w => w.councillor.map
          (fun c => isNull (getField c "councillorid"))) = [[true]] ∧
    (parseCouncillorsJ cexCouncillors).map
        (fun w => w.councillor.map
          (fun c => isNull (getField c "fullusername"))) = [[true]] :=
  ⟨rfl, rfl⟩

/-- Witness for C3: the defaulting clauses evaluated at an empty source
object give the empty-string, `'0'`, `'Council Meeting'` and empty-array
defaults. -/
theorem normalizers_default_fields_witness :
    (normCommittee (JVal.obj [])).committeeid = JVal.str "" ∧
    (normWard (JVal.obj [])).councillorcount = JVal.str "0" ∧
    (normMeetingCommittee JVal.null (JVal.obj [])).meetingtitle
      = JVal.str "Council Meeting" ∧
    (normElectionResult (JVal.obj [])).results = JVal.arr [] :=
  ⟨normalizers_default_fields.2.2.2.1 (JVal.obj []) rfl,
   normalizers_default_fields.2.2.2.2.2.2.2.1 (JVal.obj []) rfl,
   normalizers_default_fields.2.2.2.2.2.2.2.2.2.2.2.2.2.1 JVal.null
     (JVal.obj []) rfl,
   normalizers_default_fields.2.2.2.2.2.2.2.2.2.2.2.2.2.2.2.1
     (JVal.obj []) rfl⟩

/-- Claim C6 (amended): when the guards pass and the XML parses, a
count-only `getmeetings` body and any parsed value matching none of the
recognized meetings shapes both normalize to the empty sequence, not an
error. -/
theorem parseMeetings_empty_shapes (parseXml : String → Except String JVal)
    (body : String) (j : JVal)
    (hg : meetingsGuardsPass body = true) (ho : parseXml body = .ok j) :
    (countOnlyShape j = true → parseMeetingsResponse parseXml body = .ok []) ∧
    (unrecognizedShape j = true →
      parseMeetingsResponse parseXml body = .ok []) := by
  rw [meetingsGuardsPass] at hg
  simp only [Bool.and_eq_true, Bool.not_eq_true'] at hg
  obtain ⟨⟨hge, hgn⟩, hgh⟩ := hg
  have hbody : parseMeetingsResponse parseXml body = .ok (extractMeetings j) := by
    unfold parseMeetingsResponse parseMeetingsBody
    rw [hge, hgn, hgh, ho]
    simp
  constructor
  · intro hco
    rw [countOnlyShape] at hco
    simp only [Bool.and_eq_true, Bool.not_eq_true'] at hco
    obtain ⟨⟨h1, h2⟩, h3⟩ := hco
    rw [hbody]
    simp [extractMeetings, h1, h2, h3]
  · intro hun
    rw [unrecognizedShape] at hun
    simp only [Bool.and_eq_true, Bool.or_eq_true, Bool.not_eq_true',
      Bool.not_eq_true] at hun
    obtain ⟨h1, h2⟩ := hun
    rw [hbody]
    rcases h1 with hgm | ⟨hcom, hcnt⟩
    · rcases h2 with hbd | hbd <;>
        simp [extractMeetings, extractStructure2, hgm, hbd]
    · rcases h2 with hbd | hbd <;>
        simp [extractMeetings, extractStructure2, hcom, hcnt, hbd]

/-- Counterexample to C6 as stated: a well-formed XML body that matches no
recognized meetings shape but contains `<title>` and `Error` trips the
HTML-error-page guard and fails instead of normalizing to the empty
sequence. -/
theorem parseMeetings_html_guard_counterexample :
    unrecognizedShape cexHtmlTitleParsed = true ∧
    parseMeetingsResponse cexHtmlTitleParseXml cexHtmlTitleBody
      = .error "Failed to parse meetings response" :=
  ⟨rfl, rfl⟩

/-- Witness for C6: a count-only meetings body normalizes to the empty
sequence. -/
theorem parseMeetings_empty_shapes_witness :
    meetingsGuardsPass countOnlyBody = true ∧
    countOnlyShape countOnlyParsed = true ∧
    parseMeetingsResponse countOnlyParseXml countOnlyBody = .ok [] :=
  ⟨rfl, rfl,
   (parseMeetings_empty_shapes countOnlyParseXml countOnlyBody countOnlyParsed
     rfl rfl).1 rfl⟩

/-- Claim C2 (code-bug evidence): on an HTML error page the meetings call
does fail — but with the generic `'API parsing failed: Failed to parse
meetings response'`, which contains no excerpt of the offending body: the
detailed guard messages are swallowed by the function's own catch block. -/
theorem meetings_error_message_lacks_excerpt :
    handleApiResponse ⟨some 200, some htmlErrorBody⟩
        (parseMeetingsResponse rejectParseXml)
      = .error "API parsing failed: Failed to parse meetings response" ∧
    guardHtml htmlErrorBody = true ∧
    containsSub "API parsing failed: Failed to parse meetings response".data
      (htmlErrorBody.data.take 100) = false ∧
    containsSub "API parsing failed: Failed to parse meetings response".data
      (htmlErrorBody.data.take 200) = false :=
  ⟨rfl, rfl, rfl, rfl⟩

/-- Claim C4 (amended): a second admission for the same hostname arriving
within the interval of the recorded grant observes a wait of at least
(interval − elapsed) and its post-wait timestamp is recorded; an admission
for a distinct hostname is never delayed by another hostname's recorded
state. -/
theorem checkRateLimit_spec :
    (∀ (st : List (List Char × Int)) (u1 u2 : List Char) (t1 r1 t2 r2 : Int),
      urlHostname u1 = urlHostname u2 →
      t2 - r1 < rateLimitMs →
      r1 + rateLimitMs ≤ r2 →
      rateLimitMs - (t2 - r1)
          ≤ (checkRateLimit (checkRateLimit st u1 t1 r1).2 u2 t2 r2).1 ∧
      rlFind (checkRateLimit (checkRateLimit st u1 t1 r1).2 u2 t2 r2).2
          (urlHostname u2) = some r2) ∧
    (∀ (st : List (List Char × Int)) (u1 u2 : List Char) (t1 r1 t2 r2 : Int),
      urlHostname u1 ≠ urlHostname u2 →
      (checkRateLimit (checkRateLimit st u2 t1 r1).2 u1 t2 r2).1
        = (checkRateLimit st u1 t2 r2).1) := by
  constructor
  · intro st u1 u2 t1 r1 t2 r2 hsame hlt _
    unfold checkRateLimit
    dsimp only
    rw [← hsame, rlFind_rlSet_self, rlFind_rlSet_self]
    simp only [Option.getD_some]
    rw [if_pos hlt]
    exact ⟨le_refl _, by simp⟩
  · intro st u1 u2 t1 r1 t2 r2 hne
    unfold checkRateLimit
    dsimp only
    rw [rlFind_rlSet_other st (urlHostname u1) (urlHostname u2) r1 hne.symm]

/-- Counterexample to C4 as stated: two site URLs with distinct origins
(`https` vs `http` scheme) share a hostname, so the second admission is
delayed by 500ms by the first origin's recorded state. -/
theorem checkRateLimit_distinct_origin_counterexample :
    urlOrigin siteUrlHttps ≠ urlOrigin siteUrlHttp ∧
    (checkRateLimit (checkRateLimit [] siteUrlHttps 100 100).2
        siteUrlHttp 600 600).1 = 500 ∧
    (0 : Int) < 500 :=
  ⟨by decide, rfl, by decide⟩

/-- Witness for C4: a same-hostname second admission 500ms after the
recorded grant waits 500ms and records its post-wait timestamp. -/
theorem checkRateLimit_spec_witness :
    rateLimitMs - (600 - 100)
        ≤ (checkRateLimit (checkRateLimit [] siteUrlHttps 0 100).2
            siteUrlHttps 600 1100).1 ∧
    rlFind (checkRateLimit (checkRateLimit [] siteUrlHttps 0 100).2
        siteUrlHttps 600 1100).2 (urlHostname siteUrlHttps) = some 1100 :=
  checkRateLimit_spec.1 [] siteUrlHttps siteUrlHttps 0 100 600 1100 rfl
    (by decide) (by decide)

/-- Claim C1 (amended): for a well-formed site URL with optional trailing
slash and optional `?WSDL` query, `getEndpointUrl` strips those
decorations, then: keeps a URL already containing the service script name,
rewrites one ending in `/democracy` by appending the service script, and
otherwise rebuilds the URL from the host only with the fixed scheme
`https` (the input scheme is discarded) and appends the service script;
finally `/operation` is appended. -/
theorem getEndpointUrl_resolves (isHttps : Bool) (host path op : List Char)
    (slash wsdl : Bool) (hh : host ≠ [])
    (hhc : ∀ c ∈ host, hostOkChar c = true)
    (hps : path = [] ∨ path.head? = some '/')
    (hpc : ∀ c ∈ path, c ≠ '?' ∧ c ≠ ':')
    (hpe : path.reverse.head? ≠ some '/') :
    (containsSub (renderBase isHttps host path) mgScript = true →
      getEndpointUrl (renderUrl isHttps host path slash wsdl) op
        = renderBase isHttps host path ++ '/' :: op) ∧
    (containsSub (renderBase isHttps host path) mgScript = false →
      endsB (renderBase isHttps host path) "/democracy".data = true →
      getEndpointUrl (renderUrl isHttps host path slash wsdl) op
        = renderBase isHttps host path ++ mgScript ++ '/' :: op) ∧
    (containsSub (renderBase isHttps host path) mgScript = false →
      endsB (renderBase isHttps host path) "/democracy".data = false →
      getEndpointUrl (renderUrl isHttps host path slash wsdl) op
        = "https://".data ++ host ++ mgScript ++ '/' :: op) := by
  have hqb : '?' ∉ renderBase isHttps host path := by
    rw [renderBase]
    intro hm
    rcases List.mem_append.mp hm with hm | hm
    · rcases List.mem_append.mp hm with hm | hm
      · rcases List.mem_append.mp hm with hm | hm
        · cases isHttps <;> revert hm <;> decide
        · revert hm; decide
      · exact (hostOk_ne (hhc _ hm)).1 rfl
    · exact (hpc _ hm).1 rfl
  have hlast : (renderBase isHttps host path).reverse.head? ≠ some '/' := by
    rw [renderBase]
    rcases hps with rfl | hph
    · rw [List.append_nil, List.reverse_append]
      rw [head?_append_left (fun h => hh (by simpa using h))]
      exact reverse_head_ne_slash hhc (by decide)
    · have hne : path ≠ [] := by intro h; rw [h] at hph; cases hph
      rw [List.reverse_append]
      rw [head?_append_left (fun h => hne (by simpa using h))]
      exact hpe
  have hstrip := strip_renderUrl isHttps host path slash wsdl hqb hlast
  have hcolon : ':' ∉ host ++ path := by
    intro hm
    rcases List.mem_append.mp hm with hm | hm
    · exact (hostOk_ne (hhc _ hm)).2.1 rfl
    · exact (hpc _ hm).2 rfl
  have hsplit : splitSep (renderBase isHttps host path)
      = [(if isHttps then "https".data else "http".data), host ++ path] := by
    rw [renderBase]
    rw [show ((if isHttps then "https".data else "http".data)
          ++ "://".data ++ host ++ path)
        = (if isHttps then "https".data else "http".data)
          ++ (':' :: '/' :: '/' :: (host ++ path)) from by
      simp [List.append_assoc]]
    exact splitSep_once _ _ (by cases isHttps <;> decide) hcolon
  have htake : (host ++ path).takeWhile (fun c => c != '/') = host := by
    rw [takeWhile_append_of_all _ host path
      (fun a ha => by simp [bne_iff_ne]; exact (hostOk_ne (hhc a ha)).2.2)]
    rcases hps with rfl | hph
    · rw [List.takeWhile_nil, List.append_nil]
    · cases path with
      | nil => rw [List.takeWhile_nil, List.append_nil]
      | cons a t =>
        rw [List.head?_cons] at hph
        injection hph with ha
        subst ha
        rw [List.takeWhile_cons]
        simp
  refine ⟨?_, ?_, ?_⟩
  · intro hcont
    rw [getEndpointUrl]
    dsimp only
    rw [hstrip, hcont]
    simp
  · intro hcont hdemo
    obtain ⟨pre, hpre⟩ := endsB_exists hdemo
    have hlasty : (renderBase isHttps host path).reverse.head? = some 'y' := by
      rw [hpre, List.reverse_append]
      rw [head?_append_left (by decide)]
      rfl
    have hdS : endsB (renderBase isHttps host path) "/democracy/".data
        = false := by
      rw [show ("/democracy/".data : List Char)
          = "/democracy".data ++ ['/'] from rfl]
      exact endsB_false_of_last_ne (by rw [hlasty]; simp)
    have hsd : stripDemocracySuffix (renderBase isHttps host path) = pre := by
      rw [stripDemocracySuffix, hdS, hdemo]
      simp only [Bool.false_eq_true, if_false, if_true]
      rw [hpre, List.length_append,
        show ("/democracy".data : List Char).length = 10 from rfl,
        Nat.add_sub_cancel]
      exact List.take_left pre _
    rw [getEndpointUrl]
    dsimp only
    rw [hstrip, hcont, hdemo, hsd, hpre]
    simp [List.append_assoc, mgScript]
  · intro hcont hdemo
    have hdS : endsB (renderBase isHttps host path) "/democracy/".data
        = false := by
      rw [show ("/democracy/".data : List Char)
          = "/democracy".data ++ ['/'] from rfl]
      exact endsB_false_of_last_ne hlast
    rw [getEndpointUrl]
    dsimp only
    rw [hstrip, hcont, hdemo, hdS, hsplit]
    simp [htake, mgScript]

/-- Counterexample to C1 as stated: for the site URL
`http://example.com/apps` the fallback branch rebuilds the endpoint with
the fixed scheme `https`, not the input's `http` scheme. -/
theorem getEndpointUrl_scheme_counterexample :
    getEndpointUrl "http://example.com/apps".data "GetMeetings".data
      = "https://example.com/mgWebService.asmx/GetMeetings".data ∧
    getEndpointUrl "http://example.com/apps".data "GetMeetings".data
      ≠ "http://example.com/mgWebService.asmx/GetMeetings".data :=
  ⟨rfl, by decide⟩

/-- Witness for C1: resolving `http://example.com/foo?WSDL` for operation
`GetMeetings` takes the rebuild branch and yields
`https://example.com/mgWebService.asmx/GetMeetings`. -/
theorem getEndpointUrl_resolves_witness :
    renderUrl false "example.com".data "/foo".data false true
      = "http://example.com/foo?WSDL".data ∧
    getEndpointUrl (renderUrl false "example.com".data "/foo".data false true)
        "GetMeetings".data
      = "https://".data ++ "example.com".data ++ mgScript
        ++ '/' :: "GetMeetings".data :=
  ⟨rfl,
   (getEndpointUrl_resolves false "example.com".data "/foo".data
      "GetMeetings".data false true (by decide) (by decide) (Or.inr rfl)
      (by decide) (by decide)).2.2 (by decide) (by decide)⟩
